import Mathlib

/-!
Verification of the mouse_m908 device-configuration library (headers
`src/include/rd_mouse.h` and `src/include/mouse_m908.h`).

The repository ships only the class headers; the bodies of the codec,
detection and session functions live in `.cpp` files that are not part of
the source tree given here.  Where a body is missing, the corresponding
Lean definition is modelled from the specification (and from the doc
comments in the headers, which are part of the source); each such
definition carries a doc comment starting `Modelled from the spec:`.
Bytes are modelled as `Nat` with explicit `% 256` where the C++ `uint8_t`
type would truncate.
-/

namespace RdMouse

/-! ## Macro codec (`_i_decode_macro` / `_i_encode_macro`)

`rd_mouse.h:223-238` declares the two macro codec functions.  The header
doc comment for `_i_decode_macro` (rd_mouse.h:228) states: "offset: start
decoding from macro_bytes[offset], set to 0 if offset >= macro_bytes.size()".
-/

/-- A decoded macro event, following the spec's data model
(`KeyDown(code)`, `KeyUp(code)`, `Delay(milliseconds)`,
`ModifierDown(code)`, `ModifierUp(code)`); the explicit `End` marker is
part of the wire format only and is not an element of the decoded
sequence. -/
inductive MacroEvent where
  | keyDown (code : Nat)
  | keyUp (code : Nat)
  | delay (ms : Nat)
  | modifierDown (code : Nat)
  | modifierUp (code : Nat)
  deriving DecidableEq, Repr

/-- Modelled from the spec: the concrete record markers of the macro
bytecode.  The `.cpp` body of `_i_decode_macro` is not in the source
tree; the spec (§4.3, §8) fixes the record structure (a marker byte
followed by a payload byte, `0x01`/`0x02` for key-down/delay in the §8
example) and we complete the marker table with distinct nonzero bytes
for the remaining event kinds.  `0x00` is the explicit terminator. -/
def eventMarker : MacroEvent → Nat
  | .keyDown _ => 0x01
  | .delay _ => 0x02
  | .keyUp _ => 0x03
  | .modifierDown _ => 0x04
  | .modifierUp _ => 0x05

/-- The payload byte of a macro event. -/
def eventPayload : MacroEvent → Nat
  | .keyDown c => c
  | .delay ms => ms
  | .keyUp c => c
  | .modifierDown c => c
  | .modifierUp c => c

/-- A byte is a record marker iff it names one of the known event kinds. -/
def isMarker (b : Nat) : Bool :=
  b = 0x01 || b = 0x02 || b = 0x03 || b = 0x04 || b = 0x05

/-- An event whose payload fits in one byte (`uint8_t` in the C++ code). -/
def eventValid (e : MacroEvent) : Prop := eventPayload e < 256

instance (e : MacroEvent) : Decidable (eventValid e) := by
  unfold eventValid; infer_instance

/-- Modelled from the spec: the wire encoding of one macro event — its
marker byte followed by its payload byte (truncated to a byte, as the
C++ `uint8_t` buffer would). -/
def encodeEvent (e : MacroEvent) : List Nat :=
  [eventMarker e, eventPayload e % 256]

/-- The wire encoding of a macro event sequence. -/
def encodeEvents (E : List MacroEvent) : List Nat :=
  E.flatMap encodeEvent

/-- Modelled from the spec: `_i_encode_macro` (body missing from src;
declared rd_mouse.h:238).  Serializes the events into the 256-byte
buffer starting at `offset`; bytes before `offset` are left as given and
everything after the encoded content is zero-padded (spec §4.3).  Fails
(`none`, the `MacroBufferOverflow` error) if the encoded content together
with `offset` would exceed 256 bytes. -/
def _i_encode_macro (macro_bytes : List Nat) (E : List MacroEvent)
    (offset : Nat) : Option (List Nat) :=
  if offset + (encodeEvents E).length > 256 then none
  else some (macro_bytes.take offset ++ encodeEvents E
    ++ List.replicate (256 - offset - (encodeEvents E).length) 0)

/-- Modelled from the spec: the decoding walk of `_i_decode_macro`.
Consumes one record at a time: the terminator `0x00` stops the walk, a
known marker byte consumes its payload byte and emits the event, and a
byte matching no known record pattern is counted as invalid and skipped
(decoding continues past it, spec §4.3).  A marker byte with no payload
byte left is likewise counted invalid.  Returns the decoded sequence and
the invalid-code count. -/
def decodeFrom : List Nat → List MacroEvent × Nat
  | [] => ([], 0)
  | [b] => if b = 0 then ([], 0) else ([], 1)
  | b :: c :: rest =>
    if b = 0 then ([], 0)
    else if b = 0x01 then
      let r := decodeFrom rest; (.keyDown c :: r.1, r.2)
    else if b = 0x02 then
      let r := decodeFrom rest; (.delay c :: r.1, r.2)
    else if b = 0x03 then
      let r := decodeFrom rest; (.keyUp c :: r.1, r.2)
    else if b = 0x04 then
      let r := decodeFrom rest; (.modifierDown c :: r.1, r.2)
    else if b = 0x05 then
      let r := decodeFrom rest; (.modifierUp c :: r.1, r.2)
    else
      let r := decodeFrom (c :: rest); (r.1, r.2 + 1)

/-- The effective start offset of `_i_decode_macro`: per the header doc
comment (rd_mouse.h:228), the offset is set to 0 if
`offset >= macro_bytes.size()`. -/
def effOffset (macro_bytes : List Nat) (offset : Nat) : Nat :=
  if offset ≥ macro_bytes.length then 0 else offset

/-- Modelled from the spec: `_i_decode_macro` (body missing from src;
declared rd_mouse.h:231).  Decodes the buffer from `offset` (clamped per
`effOffset`) and returns the decoded event sequence together with the
return status, which is the number of invalid codes encountered
("0 if no invalid codes were encountered", rd_mouse.h:229). -/
def _i_decode_macro (macro_bytes : List Nat) (offset : Nat) :
    List MacroEvent × Nat :=
  decodeFrom (macro_bytes.drop (effOffset macro_bytes offset))

/-- A byte stream is clean when every record boundary reached by the
decoding walk holds either the terminator or a known marker byte with
its payload present. -/
def validStream : List Nat → Bool
  | [] => true
  | [b] => b = 0
  | b :: _ :: rest =>
    if b = 0 then true
    else if isMarker b then validStream rest
    else false

/-- Truncating an event's payload to a byte, as the encoder's `uint8_t`
buffer does. -/
def canonEvent : MacroEvent → MacroEvent
  | .keyDown c => .keyDown (c % 256)
  | .delay ms => .delay (ms % 256)
  | .keyUp c => .keyUp (c % 256)
  | .modifierDown c => .modifierDown (c % 256)
  | .modifierUp c => .modifierUp (c % 256)

theorem canonEvent_eq_of_valid (e : MacroEvent) (h : eventValid e) :
    canonEvent e = e := by
  cases e <;> simp_all [canonEvent, eventValid, eventPayload, Nat.mod_eq_of_lt]

theorem decodeFrom_zero (t : List Nat) : decodeFrom (0 :: t) = ([], 0) := by
  cases t <;> simp [decodeFrom]

theorem map_canonEvent_eq_self (E : List MacroEvent)
    (hv : ∀ e ∈ E, eventValid e) : E.map canonEvent = E := by
  induction E with
  | nil => rfl
  | cons e E ih =>
    simp only [List.map_cons, List.cons.injEq]
    exact ⟨canonEvent_eq_of_valid e (hv e (by simp)),
      ih fun x hx => hv x (by simp [hx])⟩

/-- The decoding walk peels off an encoded event sequence record by
record, leaving the walk of the remaining tail untouched. -/
theorem decodeFrom_encode_append (E : List MacroEvent) (tail : List Nat) :
    decodeFrom (encodeEvents E ++ tail)
      = (E.map canonEvent ++ (decodeFrom tail).1, (decodeFrom tail).2) := by
  induction E with
  | nil => simp [encodeEvents]
  | cons e E ih =>
    have hstep : encodeEvents (e :: E) ++ tail
        = eventMarker e :: eventPayload e % 256 :: (encodeEvents E ++ tail) := by
      simp [encodeEvents, encodeEvent]
    rw [hstep]
    cases e <;>
      simp [decodeFrom, eventMarker, eventPayload, canonEvent, ih]

theorem decodeFrom_replicate_zero (k : Nat) :
    decodeFrom (List.replicate k 0) = ([], 0) := by
  cases k with
  | zero => simp [decodeFrom]
  | succ n => simpa using decodeFrom_zero (List.replicate n 0)

/-- C1: For every macro event sequence `E` whose encoding fits within 256
bytes at offset 0 (i.e. `_i_encode_macro` succeeds), decoding the buffer
produced by encoding `E` at offset 0 yields exactly the sequence `E`
again, with an invalid-code count (= return status) of zero. -/
theorem macro_encode_decode_roundtrip (init buf : List Nat)
    (E : List MacroEvent) (hv : ∀ e ∈ E, eventValid e)
    (henc : _i_encode_macro init E 0 = some buf) :
    _i_decode_macro buf 0 = (E, 0) := by
  unfold _i_encode_macro at henc
  split at henc
  · exact absurd henc (by simp)
  · have hbuf : buf = encodeEvents E
        ++ List.replicate (256 - (encodeEvents E).length) 0 := by
      simpa using henc.symm
    have hmap : E.map canonEvent = E := map_canonEvent_eq_self E hv
    simp [hbuf, _i_decode_macro, effOffset, decodeFrom_encode_append,
      decodeFrom_replicate_zero, hmap]

set_option maxRecDepth 4096 in
/-- Witness for C1: the spec §8 example sequence (press key 0x04, delay
50, release key 0x04) round-trips through encode/decode at offset 0. -/
theorem macro_encode_decode_roundtrip_witness :
    _i_decode_macro (encodeEvents
        [MacroEvent.keyDown 4, MacroEvent.delay 50, MacroEvent.keyUp 4]
      ++ List.replicate 250 0) 0
      = ([MacroEvent.keyDown 4, MacroEvent.delay 50, MacroEvent.keyUp 4], 0) :=
  macro_encode_decode_roundtrip (List.replicate 256 0) _ _
    (by decide) (by decide)

/-- A concrete 258-byte macro buffer: a key-down record, zero padding,
and a trailing delay record starting at byte index 256. -/
def clampCexBuf : List Nat :=
  [0x01, 0x05] ++ List.replicate 254 0 ++ [0x02, 0x32]

set_option maxRecDepth 4096 in
/-- Counterexample to C4 as stated: on a buffer longer than 256 bytes,
an offset of 256 is *not* clamped to 0 (the header doc comment clamps
only when `offset >= macro_bytes.size()`), so decoding at offset 256
differs from decoding at offset 0. -/
theorem macro_offset_clamp_counterexample :
    _i_decode_macro clampCexBuf 256 = ([MacroEvent.delay 50], 0)
    ∧ _i_decode_macro clampCexBuf 0 = ([MacroEvent.keyDown 5], 0)
    ∧ _i_decode_macro clampCexBuf 256 ≠ _i_decode_macro clampCexBuf 0 := by
  refine ⟨by decide, by decide, by decide⟩

/-- C4 (amended): for every macro byte buffer and every offset greater
than or equal to the buffer's length — for a 256-byte buffer, every
offset ≥ 256 — `_i_decode_macro` behaves exactly as if called with
offset 0; decoding is total for any input buffer (the Lean function is
total by construction). -/
theorem macro_offset_clamp (macro_bytes : List Nat) (offset : Nat)
    (h : macro_bytes.length ≤ offset) :
    _i_decode_macro macro_bytes offset = _i_decode_macro macro_bytes 0 := by
  unfold _i_decode_macro effOffset
  rw [if_pos h, ite_self]

/-- Witness for C4 (amended): a 2-byte buffer decoded at offset 7
decodes as at offset 0. -/
theorem macro_offset_clamp_witness :
    ([1, 5] : List Nat).length ≤ 7
    ∧ _i_decode_macro [1, 5] 7 = _i_decode_macro [1, 5] 0 :=
  ⟨by decide, macro_offset_clamp [1, 5] 7 (by decide)⟩

theorem decodeFrom_junk (junk : Nat) (rest : List Nat)
    (hm : isMarker junk = false) (hz : junk ≠ 0) :
    decodeFrom (junk :: rest)
      = ((decodeFrom rest).1, (decodeFrom rest).2 + 1) := by
  simp only [isMarker, Bool.or_eq_false_iff, decide_eq_false_iff_not] at hm
  obtain ⟨⟨⟨⟨h1, h2⟩, h3⟩, h4⟩, h5⟩ := hm
  cases rest <;> simp [decodeFrom, hz, h1, h2, h3, h4, h5]

theorem decodeFrom_status_iff (l : List Nat) :
    (decodeFrom l).2 = 0 ↔ validStream l = true := by
  have H : ∀ n (l : List Nat), l.length ≤ n →
      ((decodeFrom l).2 = 0 ↔ validStream l = true) := by
    intro n
    induction n with
    | zero =>
      intro l hl
      have : l = [] := List.length_eq_zero.mp (Nat.le_zero.mp hl)
      simp [this, decodeFrom, validStream]
    | succ n ih =>
      intro l hl
      match l with
      | [] => simp [decodeFrom, validStream]
      | [b] => by_cases hb : b = 0 <;> simp [decodeFrom, validStream, hb]
      | b :: c :: rest =>
        simp only [List.length_cons] at hl
        by_cases hb : b = 0
        · simp [decodeFrom, validStream, hb]
        · by_cases hmk : isMarker b = true
          · have hrest := ih rest (by omega)
            simp only [isMarker, Bool.or_eq_true, decide_eq_true_eq] at hmk
            rcases hmk with ((((h1 | h2) | h3) | h4) | h5) <;>
              subst_vars <;>
              simp [decodeFrom, validStream, isMarker, hrest]
          · have hj := decodeFrom_junk b (c :: rest)
              (by simpa using hmk) hb
            rw [show (b :: c :: rest) = b :: (c :: rest) from rfl, hj]
            simp [validStream, hb, hmk]
  exact H l.length l le_rfl

/-- C5: `_i_decode_macro` never aborts on an unrecognized byte — it is a
total function whose return status is 0 exactly when every record
boundary it visits holds a known pattern (first conjunct), and a byte
matching no known record pattern is counted as invalid while decoding
continues past it, the output decoded before and after it still being
produced (second conjunct). -/
theorem macro_decode_best_effort (macro_bytes : List Nat) (offset : Nat)
    (E : List MacroEvent) (junk : Nat) (rest : List Nat)
    (hv : ∀ e ∈ E, eventValid e) (hm : isMarker junk = false)
    (hz : junk ≠ 0) :
    (( _i_decode_macro macro_bytes offset).2 = 0 ↔
      validStream (macro_bytes.drop (effOffset macro_bytes offset)) = true)
    ∧ decodeFrom (encodeEvents E ++ junk :: rest)
        = (E ++ (decodeFrom rest).1, (decodeFrom rest).2 + 1) := by
  constructor
  · exact decodeFrom_status_iff _
  · have hmap : E.map canonEvent = E := map_canonEvent_eq_self E hv
    rw [decodeFrom_encode_append, decodeFrom_junk junk rest hm hz, hmap]

/-- Witness for C5: decoding a buffer holding a key-down record, the
unknown byte 0xAA, and a delay record produces both events and invalid
count 1; the status of a clean buffer is 0. -/
theorem macro_decode_best_effort_witness :
    (( _i_decode_macro [0x01, 0x05, 0xAA, 0x02, 0x32] 0).2 = 0 ↔
      validStream (([0x01, 0x05, 0xAA, 0x02, 0x32] : List Nat).drop
        (effOffset [0x01, 0x05, 0xAA, 0x02, 0x32] 0)) = true)
    ∧ decodeFrom (encodeEvents [MacroEvent.keyDown 5] ++ 0xAA :: [0x02, 0x32])
        = ([MacroEvent.keyDown 5] ++ (decodeFrom [0x02, 0x32]).1,
           (decodeFrom [0x02, 0x32]).2 + 1) :=
  macro_decode_best_effort [0x01, 0x05, 0xAA, 0x02, 0x32] 0
    [MacroEvent.keyDown 5] 0xAA [0x02, 0x32]
    (by decide) (by decide) (by decide)

/-! ## Button-mapping codec (`_i_decode_button_mapping` / `_i_encode_button_mapping`)

Declared at rd_mouse.h:240-254; the bodies and the contents of the
lookup table `_c_keycodes` (declared rd_mouse.h:179) are in missing
`.cpp` files.
-/

/-- The 4 bytes describing one button mapping
(`std::array<uint8_t,4>` in the source). -/
def Bytes4 : Type := Nat × Nat × Nat × Nat

instance : DecidableEq Bytes4 := by unfold Bytes4; infer_instance
instance : BEq Bytes4 := by unfold Bytes4; infer_instance
instance : LawfulBEq Bytes4 := by unfold Bytes4; infer_instance

/-- All four bytes of a pattern fit in `uint8_t`. -/
def bytes4OK (B : Bytes4) : Prop :=
  B.1 < 256 ∧ B.2.1 < 256 ∧ B.2.2.1 < 256 ∧ B.2.2.2 < 256

instance (B : Bytes4) : Decidable (bytes4OK B) := by
  unfold bytes4OK; infer_instance

/-- Modelled from the spec: `_c_keycodes`, the mapping of button names
to 4-byte values (declared rd_mouse.h:179, contents in a missing data
file).  The entries are a representative closed table of simple-button
and special-function names; the claims about the codec only depend on a
pattern or token being present or absent in the table. -/
def _c_keycodes : List (String × Bytes4) :=
  [("left", (0x01, 0x01, 0x00, 0x00)),
   ("right", (0x01, 0x02, 0x00, 0x00)),
   ("middle", (0x01, 0x04, 0x00, 0x00)),
   ("backward", (0x01, 0x08, 0x00, 0x00)),
   ("forward", (0x01, 0x10, 0x00, 0x00)),
   ("dpi+", (0x02, 0x01, 0x00, 0x00)),
   ("dpi-", (0x02, 0x02, 0x00, 0x00)),
   ("dpi-cycle", (0x02, 0x04, 0x00, 0x00)),
   ("profile-switch", (0x02, 0x08, 0x00, 0x00))]

/-- The lower-case hex digit character for a value below 16. -/
def hexDigitChar (n : Nat) : Char :=
  if n < 10 then Char.ofNat (48 + n) else Char.ofNat (97 + (n - 10))

/-- The two lower-case hex digit characters of a byte. -/
def byteHexChars (b : Nat) : List Char :=
  [hexDigitChar (b / 16), hexDigitChar (b % 16)]

/-- The `RawUnknown` literal form of a 4-byte pattern: `0x` followed by
the eight hex digits of the four bytes. -/
def rawUnknownChars (B : Bytes4) : List Char :=
  '0' :: 'x' :: (byteHexChars B.1 ++ byteHexChars B.2.1
    ++ byteHexChars B.2.2.1 ++ byteHexChars B.2.2.2)

/-- The `RawUnknown` literal form as a string. -/
def rawUnknownString (B : Bytes4) : String := String.mk (rawUnknownChars B)

/-- The value of a lower-case hex digit character, if it is one. -/
def hexDigitVal (c : Char) : Option Nat :=
  if '0' ≤ c ∧ c ≤ '9' then some (c.toNat - 48)
  else if 'a' ≤ c ∧ c ≤ 'f' then some (c.toNat - 87)
  else none

/-- The byte value of two hex digit characters. -/
def byteVal (h l : Char) : Option Nat :=
  match hexDigitVal h, hexDigitVal l with
  | some hv, some lv => some (16 * hv + lv)
  | _, _ => none

/-- Parse the `RawUnknown` literal form back into its 4 bytes. -/
def parseRawChars : List Char → Option Bytes4
  | ['0', 'x', h0, l0, h1, l1, h2, l2, h3, l3] =>
    match byteVal h0 l0, byteVal h1 l1, byteVal h2 l2, byteVal h3 l3 with
    | some b0, some b1, some b2, some b3 => some (b0, b1, b2, b3)
    | _, _, _, _ => none
  | _ => none

/-- Modelled from the spec: `_i_decode_button_mapping` (body missing
from src; declared rd_mouse.h:246).  Looks the 4-byte pattern up in the
mapping table and returns the mapped name; a pattern present in no table
resolves to the `RawUnknown` hex literal form rather than failing
(spec 4.4, 7). -/
def _i_decode_button_mapping (bytes : Bytes4) : String :=
  match _c_keycodes.find? (fun e => e.2 == bytes) with
  | some e => e.1
  | none => rawUnknownString bytes

/-- Modelled from the spec: `_i_encode_button_mapping` (body missing
from src; declared rd_mouse.h:254).  Resolves the mapping string via the
lookup table; a string in no table is accepted when it is the literal
hex/byte form produced for a `RawUnknown` and re-encodes to those bytes;
anything else is the `UnknownMappingToken` error (`none`).  The
modifier+key composite form of spec 4.4 resolves through the same
table in this model; no claim exercises it. -/
def _i_encode_button_mapping (mapping : String) : Option Bytes4 :=
  match _c_keycodes.find? (fun e => e.1 == mapping) with
  | some e => some e.2
  | none => parseRawChars mapping.data

theorem hexDigitVal_hexDigitChar (d : Nat) (hd : d < 16) :
    hexDigitVal (hexDigitChar d) = some d := by
  interval_cases d <;> decide

theorem byteVal_byteHex (b : Nat) (hb : b < 256) :
    byteVal (hexDigitChar (b / 16)) (hexDigitChar (b % 16)) = some b := by
  have h1 : b / 16 < 16 := Nat.div_lt_of_lt_mul (by omega)
  have h2 : b % 16 < 16 := Nat.mod_lt b (by omega)
  rw [byteVal, hexDigitVal_hexDigitChar _ h1, hexDigitVal_hexDigitChar _ h2]
  simp [Nat.div_add_mod]

theorem parseRaw_rawUnknown (B : Bytes4) (hB : bytes4OK B) :
    parseRawChars (rawUnknownChars B) = some B := by
  obtain ⟨b0, b1, b2, b3⟩ := B
  obtain ⟨h0, h1, h2, h3⟩ := hB
  show parseRawChars ['0', 'x',
    hexDigitChar (b0 / 16), hexDigitChar (b0 % 16),
    hexDigitChar (b1 / 16), hexDigitChar (b1 % 16),
    hexDigitChar (b2 / 16), hexDigitChar (b2 % 16),
    hexDigitChar (b3 / 16), hexDigitChar (b3 % 16)] = some (b0, b1, b2, b3)
  rw [parseRawChars, byteVal_byteHex b0 h0, byteVal_byteHex b1 h1,
    byteVal_byteHex b2 h2, byteVal_byteHex b3 h3]

theorem rawUnknownChars_length (B : Bytes4) :
    (rawUnknownChars B).length = 10 := rfl

theorem name_ne_rawUnknown (s : String) (B : Bytes4)
    (hs : s.data.length ≠ 10) : s ≠ rawUnknownString B := by
  intro h
  apply hs
  have : s.data = (rawUnknownString B).data := congrArg String.data h
  rw [this]
  exact rawUnknownChars_length B

/-- C2: every 4-byte pattern `B` (of genuine bytes) matching no entry in
the button-mapping lookup table decodes to the `RawUnknown` literal
form, and `_i_encode_button_mapping` accepts that string and re-encodes
it to exactly the same 4 bytes. -/
theorem mapping_raw_roundtrip (B : Bytes4) (hB : bytes4OK B)
    (hnot : ∀ e ∈ _c_keycodes, e.2 ≠ B) :
    _i_decode_button_mapping B = rawUnknownString B
    ∧ _i_encode_button_mapping (_i_decode_button_mapping B) = some B := by
  have hfind : _c_keycodes.find? (fun e => e.2 == B) = none :=
    List.find?_eq_none.mpr fun e he => by
      simpa using hnot e he
  have hdec : _i_decode_button_mapping B = rawUnknownString B := by
    rw [_i_decode_button_mapping, hfind]
  refine ⟨hdec, ?_⟩
  rw [hdec]
  have hname : _c_keycodes.find? (fun e => e.1 == rawUnknownString B)
      = none := by
    apply List.find?_eq_none.mpr
    intro e he
    fin_cases he <;>
      (simp only [beq_iff_eq]; exact name_ne_rawUnknown _ B (by decide))
  rw [_i_encode_button_mapping, hname]
  exact parseRaw_rawUnknown B hB

/-- Witness for C2: the pattern `0xa1b2c3d4` is in no table, decodes to
its hex literal form and re-encodes to the identical bytes. -/
theorem mapping_raw_roundtrip_witness :
    _i_decode_button_mapping (0xa1, 0xb2, 0xc3, 0xd4)
      = rawUnknownString (0xa1, 0xb2, 0xc3, 0xd4)
    ∧ _i_encode_button_mapping
        (_i_decode_button_mapping (0xa1, 0xb2, 0xc3, 0xd4))
      = some (0xa1, 0xb2, 0xc3, 0xd4) :=
  mapping_raw_roundtrip (0xa1, 0xb2, 0xc3, 0xd4) (by decide) (by decide)

/-! ## Device detection (`rd_mouse::detect`, `rd_mouse::mouse_variant`,
`rd_mouse::monostate`)

The `mouse_variant` typedef (rd_mouse.h:127-140) fixes the priority
order: `rd_mouse::monostate` first, then the ten concrete models, and
`mouse_generic` last ("needs to be last to take the lowest priority
during detection", rd_mouse.h:139).  The body of `detect`
(rd_mouse.h:146) is in a missing `.cpp` file.
-/

/-- A USB device as seen during enumeration: its vendor and product id. -/
structure UsbId where
  vid : Nat
  pid : Nat
  deriving DecidableEq, Repr

/-- A device descriptor of one concrete mouse model: display name and
USB vendor/product id. -/
structure ModelDesc where
  name : String
  vid : Nat
  pid : Nat
  deriving DecidableEq, Repr

/-- A model descriptor matches an enumerated device when the vendor and
product ids agree. -/
def hasVidPid (m : ModelDesc) (d : UsbId) : Bool :=
  d.vid == m.vid && d.pid == m.pid

namespace monostate

/-- `rd_mouse::monostate::get_name` (rd_mouse.h:83): returns the empty
string. -/
def get_name : String := ""

/-- `rd_mouse::monostate::has_vid_pid` (rd_mouse.h:86-90): ignores both
arguments and returns `false`. -/
def has_vid_pid (_vid _pid : Nat) : Bool :=
  false

end monostate

/-- Modelled from the spec: the ten concrete model descriptors, in the
priority order of the `mouse_variant` typedef (rd_mouse.h:129-138).
The per-model VID/PID constants live in the missing per-model headers;
the m908 pair `0x1e7d/0x2e22` is the spec 8 example, the others are
representative distinct ids. -/
def models : List ModelDesc :=
  [⟨"m607", 0x1e7d, 0x2e4a⟩,
   ⟨"m709", 0x1e7d, 0x2e4b⟩,
   ⟨"m711", 0x1e7d, 0x2e4c⟩,
   ⟨"m715", 0x1e7d, 0x2e4d⟩,
   ⟨"m719", 0x1e7d, 0x2e4e⟩,
   ⟨"m721", 0x1e7d, 0x2e4f⟩,
   ⟨"m908", 0x1e7d, 0x2e22⟩,
   ⟨"m913", 0x1e7d, 0x2e50⟩,
   ⟨"m990", 0x1e7d, 0x2e51⟩,
   ⟨"m990chroma", 0x1e7d, 0x2e52⟩]

/-- One entry of the scanned catalog: the placeholder
`rd_mouse::monostate` or a concrete model. -/
inductive CatalogEntry where
  | mono
  | model (m : ModelDesc)
  deriving DecidableEq, Repr

/-- Whether a catalog entry matches an enumerated device; the monostate
entry uses `monostate.has_vid_pid` (constantly false, rd_mouse.h:86-90). -/
def entryMatches : CatalogEntry → UsbId → Bool
  | .mono, d => monostate.has_vid_pid d.vid d.pid
  | .model m, d => hasVidPid m d

/-- The scanned catalog in the priority order of `mouse_variant`
(rd_mouse.h:127-140): monostate first, the concrete models after it;
the generic fallback is handled separately at lowest priority. -/
def catalog : List CatalogEntry :=
  CatalogEntry.mono :: models.map CatalogEntry.model

/-- A device is of known type when some concrete model descriptor
matches it. -/
def knownDevice (d : UsbId) : Bool :=
  models.any (fun m => hasVidPid m d)

/-- The detection result: `monostate` is the `NoDevice` placeholder, a
concrete model, or the generic fallback bound to a device. -/
inductive MouseVariant where
  | monostate
  | model (m : ModelDesc)
  | generic (d : UsbId)
  deriving DecidableEq, Repr

/-- Modelled from the spec: `rd_mouse::detect` (body missing from src;
declared rd_mouse.h:146).  Scans the catalog in priority order and
returns the first entry some enumerated device matches, instantiated as
that entry's variant; if none matches and the generic fallback is
enabled, returns the generic variant bound to the first enumerated
device of unknown type; otherwise the `rd_mouse::monostate` placeholder
(spec 4.1). -/
def detect (genericEnabled : Bool) (devices : List UsbId) : MouseVariant :=
  match catalog.find? (fun e => devices.any (entryMatches e)) with
  | some CatalogEntry.mono => MouseVariant.monostate
  | some (CatalogEntry.model m) => MouseVariant.model m
  | none =>
    if genericEnabled then
      match devices.find? (fun d => !knownDevice d) with
      | some d => MouseVariant.generic d
      | none => MouseVariant.monostate
    else MouseVariant.monostate

theorem find?_eq_get_of_earlier_false {α : Type} (p : α → Bool) :
    ∀ (l : List α) (k : Nat) (hk : k < l.length),
      p (l.get ⟨k, hk⟩) = true →
      (∀ j (hj : j < k), p (l.get ⟨j, Nat.lt_trans hj hk⟩) = false) →
      l.find? p = some (l.get ⟨k, hk⟩) := by
  intro l
  induction l with
  | nil => intro k hk; exact absurd hk (by simp)
  | cons a l ih =>
    intro k hk hp hbefore
    cases k with
    | zero => exact List.find?_cons_of_pos _ hp
    | succ j =>
      have ha : p a = false := hbefore 0 (Nat.succ_pos j)
      rw [List.find?_cons_of_neg _ (by simp [ha])]
      exact ih j (by simpa using hk) hp
        fun j' hj' => hbefore (j' + 1) (by omega)

theorem catalog_mono_no_match (devices : List UsbId) :
    devices.any (entryMatches CatalogEntry.mono) = false := by
  simp [entryMatches, monostate.has_vid_pid]

/-- C3: `detect` tests the catalog in the fixed priority order of the
`mouse_variant` alternatives and returns the first concrete model some
attached device matches: if the model at priority index `k` matches an
attached device and no model of higher priority does, `detect` returns
that model's variant — in particular never the generic variant and never
the `NoDevice` placeholder. -/
theorem detect_first_match (genericEnabled : Bool) (devices : List UsbId)
    (k : Nat) (hk : k < models.length)
    (hmatch : ∃ d ∈ devices, hasVidPid (models.get ⟨k, hk⟩) d = true)
    (hearlier : ∀ j (hj : j < k), ∀ d ∈ devices,
      hasVidPid (models.get ⟨j, Nat.lt_trans hj hk⟩) d = false) :
    detect genericEnabled devices = MouseVariant.model (models.get ⟨k, hk⟩)
    ∧ (∀ d, detect genericEnabled devices ≠ MouseVariant.generic d)
    ∧ detect genericEnabled devices ≠ MouseVariant.monostate := by
  have hk' : k < (models.map CatalogEntry.model).length := by simpa using hk
  have hget : (models.map CatalogEntry.model).get ⟨k, hk'⟩
      = CatalogEntry.model (models.get ⟨k, hk⟩) := by
    simp
  have hfind : (models.map CatalogEntry.model).find?
      (fun e => devices.any (entryMatches e))
      = some (CatalogEntry.model (models.get ⟨k, hk⟩)) := by
    rw [← hget]
    apply find?_eq_get_of_earlier_false _ _ k hk'
    · rw [hget]
      obtain ⟨d, hd, hpd⟩ := hmatch
      simpa [entryMatches] using ⟨d, hd, hpd⟩
    · intro j hj
      have hgetj : (models.map CatalogEntry.model).get
          ⟨j, Nat.lt_trans hj hk'⟩
          = CatalogEntry.model (models.get ⟨j, Nat.lt_trans hj hk⟩) := by
        simp
      rw [hgetj]
      simp only [entryMatches, List.any_eq_false]
      intro d hd
      simpa using hearlier j hj d hd
  have hdet : detect genericEnabled devices
      = MouseVariant.model (models.get ⟨k, hk⟩) := by
    rw [detect, catalog,
      List.find?_cons_of_neg _ (by simp [catalog_mono_no_match devices]),
      hfind]
  refine ⟨hdet, fun d => ?_, ?_⟩ <;> simp [hdet]

/-- Witness for C3: with one attached device reporting vid `0x1e7d`,
pid `0x2e22`, `detect` returns the m908 model variant. -/
theorem detect_first_match_witness :
    detect true [⟨0x1e7d, 0x2e22⟩]
      = MouseVariant.model (models.get ⟨6, by decide⟩)
    ∧ (∀ d, detect true [⟨0x1e7d, 0x2e22⟩] ≠ MouseVariant.generic d)
    ∧ detect true [⟨0x1e7d, 0x2e22⟩] ≠ MouseVariant.monostate :=
  detect_first_match true [⟨0x1e7d, 0x2e22⟩] 6 (by decide)
    ⟨⟨0x1e7d, 0x2e22⟩, by decide, by decide⟩
    (by decide)

/-- C10: the placeholder `rd_mouse::monostate` reports
`has_vid_pid(vid, pid) = false` for every vendor/product pair and
`get_name() = ""`, so it is never selected as a match during the catalog
scan of detection and never equals a non-empty name filter. -/
theorem monostate_never_matches (vid pid : Nat) (s : String) (hs : s ≠ "")
    (devices : List UsbId) :
    monostate.has_vid_pid vid pid = false
    ∧ monostate.get_name = ""
    ∧ monostate.get_name ≠ s
    ∧ catalog.find? (fun e => devices.any (entryMatches e))
        ≠ some CatalogEntry.mono := by
  refine ⟨rfl, rfl, fun h => hs h.symm, fun hfind => ?_⟩
  rw [catalog,
    List.find?_cons_of_neg _ (by simp [catalog_mono_no_match devices])]
    at hfind
  have hmem : CatalogEntry.mono ∈ models.map CatalogEntry.model :=
    List.mem_of_find?_eq_some hfind
  obtain ⟨m, -, hm⟩ := List.mem_map.mp hmem
  exact CatalogEntry.noConfusion hm

/-- Witness for C10: instantiated at vid/pid `0x1e7d/0x2e22`, the
name filter "m908" and a one-device enumeration. -/
theorem monostate_never_matches_witness :
    monostate.has_vid_pid 0x1e7d 0x2e22 = false
    ∧ monostate.get_name = ""
    ∧ monostate.get_name ≠ "m908"
    ∧ catalog.find? (fun e => [UsbId.mk 0x1e7d 0x2e22].any (entryMatches e))
        ≠ some CatalogEntry.mono :=
  monostate_never_matches 0x1e7d 0x2e22 "m908" (by decide) [⟨0x1e7d, 0x2e22⟩]

/-! ## USB session lifecycle (`_i_open_mouse`, `_i_open_mouse_bus_device`,
`_i_close_mouse`)

Declared at rd_mouse.h:207-220 with the member flags
`_i_detached_driver_0/1/2` ("set by open_mouse for close_mouse",
rd_mouse.h:200-205); the bodies are in missing `.cpp` files and are
modelled from spec 4.2.  The transport calls are modelled as an action
trace; the resulting transport state is obtained by replaying the
trace, so the rollback and teardown guarantees are proved about the
emitted calls, not defined into the state.
-/

/-- One call into the USB transport layer. -/
inductive UsbAction where
  | claimI (i : Nat)
  | releaseI (i : Nat)
  | detachI (i : Nat)
  | attachI (i : Nat)
  | closeHandle
  deriving DecidableEq, Repr

/-- The observable transport state: the interfaces this process holds a
claim on (most recently claimed first), the interfaces whose kernel
driver is currently detached (most recently detached first), and whether
the libusb handle/context is live. -/
structure TransportState where
  claimed : List Nat
  detached : List Nat
  handleOpen : Bool
  deriving DecidableEq, Repr

/-- The effect of one transport call on the transport state. -/
def applyAction (s : TransportState) : UsbAction → TransportState
  | .claimI i => { s with claimed := i :: s.claimed }
  | .releaseI i => { s with claimed := s.claimed.erase i }
  | .detachI i => { s with detached := i :: s.detached }
  | .attachI i => { s with detached := s.detached.erase i }
  | .closeHandle => { s with handleOpen := false }

/-- Replaying a trace of transport calls over a state. -/
def replay (s : TransportState) (tr : List UsbAction) : TransportState :=
  tr.foldl applyAction s

/-- The environment an open/close attempt runs against: which interfaces
have an active kernel driver, and which transport calls fail. -/
structure UsbEnv where
  hasKernelDriver : Nat → Bool
  detachFails : Nat → Bool
  claimFails : Nat → Bool
  attachFails : Nat → Bool

/-- The rollback calls of a failed open: release every interface claimed
so far and reattach every driver detached so far — the accumulators hold
the most recent interface first, so the rollback runs in reverse
order. -/
def rollbackTrace (claimedAcc detachedAcc : List Nat) : List UsbAction :=
  claimedAcc.map UsbAction.releaseI ++ detachedAcc.map UsbAction.attachI

/-- Modelled from the spec: the per-interface loop of `_i_open_mouse`
(body missing from src; spec 4.2).  For each interface: if kernel-driver
detaching is enabled and a driver is active, try to detach it (recording
success, not fatal on failure), then claim the interface; if the claim
fails, emit the rollback calls and return a nonzero status.  Returns the
status and the full trace of transport calls made. -/
def openLoop (env : UsbEnv) (detachKD : Bool) :
    List Nat → List Nat → List Nat → Nat × List UsbAction
  | [], _, _ => (0, [])
  | i :: rest, claimedAcc, detachedAcc =>
    let doDetach := detachKD && env.hasKernelDriver i && !env.detachFails i
    let detachedAcc' := if doDetach then i :: detachedAcc else detachedAcc
    let detachTrace : List UsbAction :=
      if doDetach then [UsbAction.detachI i] else []
    if env.claimFails i then
      (1, detachTrace ++ rollbackTrace claimedAcc detachedAcc')
    else
      let r := openLoop env detachKD rest (i :: claimedAcc) detachedAcc'
      (r.1, detachTrace ++ UsbAction.claimI i :: r.2)

/-- Modelled from the spec: `_i_open_mouse` (declared rd_mouse.h:210,
body missing): locates the device by VID/PID and runs the interface
claim loop over the device's `n` interfaces. -/
def _i_open_mouse (env : UsbEnv) (detachKD : Bool) (n : Nat) :
    Nat × List UsbAction :=
  openLoop env detachKD (List.range n) [] []

/-- Modelled from the spec: `_i_open_mouse_bus_device` (declared
rd_mouse.h:215, body missing): identical to `_i_open_mouse` except that
the device is located by bus/address, which the transport model does not
distinguish. -/
def _i_open_mouse_bus_device (env : UsbEnv) (detachKD : Bool) (n : Nat) :
    Nat × List UsbAction :=
  openLoop env detachKD (List.range n) [] []

/-- Modelled from the spec: `_i_close_mouse` (declared rd_mouse.h:220,
body missing; "return 0 if successful (always at the moment)",
rd_mouse.h:218).  Releases the claimed interfaces in reverse acquisition
order, reattaches each previously detached kernel driver (a failing
reattach call is reported by the transport layer and ignored), closes
the handle and context, and returns 0 unconditionally. -/
def _i_close_mouse (env : UsbEnv) (s : TransportState) :
    Nat × List UsbAction :=
  (0, s.claimed.map UsbAction.releaseI
    ++ (s.detached.filter (fun i => !env.attachFails i)).map UsbAction.attachI
    ++ [UsbAction.closeHandle])

theorem replay_append (s : TransportState) (t1 t2 : List UsbAction) :
    replay s (t1 ++ t2) = replay (replay s t1) t2 :=
  List.foldl_append ..

theorem replay_release_stack (acc : List Nat) :
    ∀ (base : List Nat) (s : TransportState), s.claimed = acc ++ base →
      replay s (acc.map UsbAction.releaseI)
        = { s with claimed := base } := by
  induction acc with
  | nil => intro base s h; cases s; simp_all [replay]
  | cons a acc ih =>
    intro base s h
    have h1 : (applyAction s (UsbAction.releaseI a)).claimed = acc ++ base := by
      simp [applyAction, h, List.erase_cons_head]
    have := ih base (applyAction s (UsbAction.releaseI a)) h1
    simpa [replay, applyAction] using this

theorem replay_attach_stack (acc : List Nat) :
    ∀ (base : List Nat) (s : TransportState), s.detached = acc ++ base →
      replay s (acc.map UsbAction.attachI)
        = { s with detached := base } := by
  induction acc with
  | nil => intro base s h; cases s; simp_all [replay]
  | cons a acc ih =>
    intro base s h
    have h1 : (applyAction s (UsbAction.attachI a)).detached = acc ++ base := by
      simp [applyAction, h, List.erase_cons_head]
    have := ih base (applyAction s (UsbAction.attachI a)) h1
    simpa [replay, applyAction] using this

theorem replay_rollback (claimedAcc detachedAcc base_c base_d : List Nat)
    (s : TransportState) (hc : s.claimed = claimedAcc ++ base_c)
    (hd : s.detached = detachedAcc ++ base_d) :
    replay s (rollbackTrace claimedAcc detachedAcc)
      = { s with claimed := base_c, detached := base_d } := by
  rw [rollbackTrace, replay_append, replay_release_stack claimedAcc base_c s hc]
  exact replay_attach_stack detachedAcc base_d _ hd

/-- On a claim failure, replaying the open loop's full trace returns the
transport state exactly to what it was when the loop started, for any
pending-interface list and any accumulator-consistent state. -/
theorem openLoop_fail_replay (env : UsbEnv) (detachKD : Bool) :
    ∀ (ifs claimedAcc detachedAcc base_c base_d : List Nat)
      (s : TransportState), s.claimed = claimedAcc ++ base_c →
      s.detached = detachedAcc ++ base_d →
      (openLoop env detachKD ifs claimedAcc detachedAcc).1 ≠ 0 →
      replay s (openLoop env detachKD ifs claimedAcc detachedAcc).2
        = { s with claimed := base_c, detached := base_d } := by
  intro ifs
  induction ifs with
  | nil => intro _ _ _ _ _ _ _ hfail; exact absurd rfl hfail
  | cons i rest ih =>
    intro claimedAcc detachedAcc base_c base_d s hc hd hfail
    by_cases hdet : (detachKD && env.hasKernelDriver i && !env.detachFails i)
      = true
    · set s1 := applyAction s (UsbAction.detachI i) with hs1
      have hd1 : s1.detached = (i :: detachedAcc) ++ base_d := by
        simp [hs1, applyAction, hd]
      have hc1 : s1.claimed = claimedAcc ++ base_c := by
        simp [hs1, applyAction, hc]
      by_cases hcf : env.claimFails i = true
      · have hopen : openLoop env detachKD (i :: rest) claimedAcc detachedAcc
            = (1, UsbAction.detachI i
                :: rollbackTrace claimedAcc (i :: detachedAcc)) := by
          simp [openLoop, hdet, hcf]
        rw [hopen]
        have := replay_rollback claimedAcc (i :: detachedAcc) base_c base_d
          s1 hc1 hd1
        simp only [replay, List.foldl_cons] at this ⊢
        rw [← hs1]
        simpa [hs1, applyAction] using this
      · have hopen : openLoop env detachKD (i :: rest) claimedAcc detachedAcc
            = ((openLoop env detachKD rest (i :: claimedAcc)
                  (i :: detachedAcc)).1,
               UsbAction.detachI i :: UsbAction.claimI i
                 :: (openLoop env detachKD rest (i :: claimedAcc)
                      (i :: detachedAcc)).2) := by
          simp [openLoop, hdet, hcf]
        rw [hopen] at hfail ⊢
        set s2 := applyAction s1 (UsbAction.claimI i) with hs2
        have hc2 : s2.claimed = (i :: claimedAcc) ++ base_c := by
          simp [hs2, applyAction, hc1]
        have hd2 : s2.detached = (i :: detachedAcc) ++ base_d := by
          simp [hs2, applyAction, hd1]
        have := ih (i :: claimedAcc) (i :: detachedAcc) base_c base_d s2
          hc2 hd2 (by simpa using hfail)
        simp only [replay, List.foldl_cons] at this ⊢
        rw [← hs1, ← hs2]
        simpa [hs1, hs2, applyAction] using this
    · have hdet' : (detachKD && env.hasKernelDriver i && !env.detachFails i)
          = false := by simpa using hdet
      by_cases hcf : env.claimFails i = true
      · have hopen : openLoop env detachKD (i :: rest) claimedAcc detachedAcc
            = (1, rollbackTrace claimedAcc detachedAcc) := by
          simp [openLoop, hdet', hcf]
        rw [hopen]
        exact replay_rollback claimedAcc detachedAcc base_c base_d s hc hd
      · have hopen : openLoop env detachKD (i :: rest) claimedAcc detachedAcc
            = ((openLoop env detachKD rest (i :: claimedAcc) detachedAcc).1,
               UsbAction.claimI i
                 :: (openLoop env detachKD rest (i :: claimedAcc)
                      detachedAcc).2) := by
          simp [openLoop, hdet', hcf]
        rw [hopen] at hfail ⊢
        set s2 := applyAction s (UsbAction.claimI i) with hs2
        have hc2 : s2.claimed = (i :: claimedAcc) ++ base_c := by
          simp [hs2, applyAction, hc]
        have hd2 : s2.detached = detachedAcc ++ base_d := by
          simp [hs2, applyAction, hd]
        have := ih (i :: claimedAcc) detachedAcc base_c base_d s2
          hc2 hd2 (by simpa using hfail)
        simp only [replay, List.foldl_cons] at this ⊢
        rw [← hs2]
        simpa [hs2, applyAction] using this

/-- The fresh transport state before an open attempt. -/
def initTransport : TransportState :=
  { claimed := [], detached := [], handleOpen := false }

/-- C6: open is atomic.  If `_i_open_mouse` (or
`_i_open_mouse_bus_device`) fails while claiming one of the device's
interfaces, replaying every transport call it made leaves any starting
state unchanged — in particular, starting from the fresh state, zero
claimed interfaces and no left-detached kernel drivers.  (The rollback
calls are emitted from the most-recent-first accumulators, i.e. in
reverse order of acquisition.) -/
theorem open_fail_rollback (env : UsbEnv) (detachKD : Bool) (n : Nat)
    (s : TransportState)
    (hfail : (_i_open_mouse env detachKD n).1 ≠ 0) :
    replay s (_i_open_mouse env detachKD n).2 = s
    ∧ (replay initTransport (_i_open_mouse env detachKD n).2).claimed = []
    ∧ (replay initTransport (_i_open_mouse env detachKD n).2).detached = []
    ∧ replay s (_i_open_mouse_bus_device env detachKD n).2 = s := by
  have key : ∀ s' : TransportState,
      replay s' (_i_open_mouse env detachKD n).2 = s' := by
    intro s'
    have := openLoop_fail_replay env detachKD (List.range n) [] []
      s'.claimed s'.detached s' (by simp) (by simp) hfail
    simpa [_i_open_mouse] using this
  refine ⟨key s, ?_, ?_, key s⟩ <;> rw [key initTransport] <;> rfl

/-- Witness for C6: a 3-interface open against an environment whose
claim of interface 1 fails (with a kernel driver active on every
interface) fails and rolls the fresh transport state back to itself. -/
theorem open_fail_rollback_witness :
    (_i_open_mouse
        ⟨fun _ => true, fun _ => false, fun i => i == 1, fun _ => false⟩
        true 3).1 ≠ 0
    ∧ replay initTransport
        (_i_open_mouse
          ⟨fun _ => true, fun _ => false, fun i => i == 1, fun _ => false⟩
          true 3).2 = initTransport :=
  ⟨by decide,
    (open_fail_rollback
      ⟨fun _ => true, fun _ => false, fun i => i == 1, fun _ => false⟩
      true 3 initTransport (by decide)).1⟩

theorem replay_attach_keeps_claimed (l : List Nat) :
    ∀ s : TransportState,
      (replay s (l.map UsbAction.attachI)).claimed = s.claimed
      ∧ (replay s (l.map UsbAction.attachI)).handleOpen = s.handleOpen := by
  induction l with
  | nil => intro s; exact ⟨rfl, rfl⟩
  | cons a l ih =>
    intro s
    simpa [replay, applyAction] using ih (applyAction s (UsbAction.attachI a))

/-- C7: `_i_close_mouse` always completes the transition to the closed
state: its return status is 0 in every environment, and replaying its
teardown calls (releases in reverse acquisition order, then the
reattaches that succeed, then closing handle and context) over the
session's state leaves zero claimed interfaces and a dead handle —
reattach failures never prevent this; when no reattach call fails, no
kernel driver is left detached either. -/
theorem close_unconditional (env : UsbEnv) (s : TransportState) :
    (_i_close_mouse env s).1 = 0
    ∧ (replay s (_i_close_mouse env s).2).claimed = []
    ∧ (replay s (_i_close_mouse env s).2).handleOpen = false
    ∧ ((∀ i ∈ s.detached, env.attachFails i = false) →
        (replay s (_i_close_mouse env s).2).detached = []) := by
  have hrel := replay_release_stack s.claimed [] s (by simp)
  have hsr : replay s (s.claimed.map UsbAction.releaseI)
      = { s with claimed := [] } := hrel
  have hsplit : replay s (_i_close_mouse env s).2
      = applyAction (replay { s with claimed := [] }
          ((s.detached.filter (fun i => !env.attachFails i)).map
            UsbAction.attachI)) UsbAction.closeHandle := by
    rw [_i_close_mouse]
    rw [replay_append, replay_append, hsr]
    rfl
  refine ⟨rfl, ?_, ?_, ?_⟩
  · rw [hsplit]
    simpa [applyAction] using
      (replay_attach_keeps_claimed _ { s with claimed := [] }).1
  · rw [hsplit]; rfl
  · intro hall
    have hfilter : s.detached.filter (fun i => !env.attachFails i)
        = s.detached := by
      apply List.filter_eq_self.mpr
      intro a ha
      simp [hall a ha]
    rw [hsplit, hfilter]
    have := replay_attach_stack s.detached []
      { s with claimed := [] } (by simp)
    rw [this]
    rfl

/-- Witness for C7: closing a session that holds interfaces 2,1,0 with
drivers 1 and 0 detached, in an environment where every reattach fails,
still returns 0 with no claimed interfaces and a dead handle; in the
failure-free environment the detached list empties as well. -/
theorem close_unconditional_witness :
    (_i_close_mouse ⟨fun _ => true, fun _ => false, fun _ => false,
        fun _ => true⟩ ⟨[2, 1, 0], [1, 0], true⟩).1 = 0
    ∧ (replay ⟨[2, 1, 0], [1, 0], true⟩
        (_i_close_mouse ⟨fun _ => true, fun _ => false, fun _ => false,
          fun _ => true⟩ ⟨[2, 1, 0], [1, 0], true⟩).2).claimed = []
    ∧ (replay ⟨[2, 1, 0], [1, 0], true⟩
        (_i_close_mouse ⟨fun _ => true, fun _ => false, fun _ => false,
          fun _ => true⟩ ⟨[2, 1, 0], [1, 0], true⟩).2).handleOpen = false
    ∧ ((∀ i ∈ ([1, 0] : List Nat),
          (fun (_ : Nat) => true) i = false) →
        (replay ⟨[2, 1, 0], [1, 0], true⟩
          (_i_close_mouse ⟨fun _ => true, fun _ => false, fun _ => false,
            fun _ => true⟩ ⟨[2, 1, 0], [1, 0], true⟩).2).detached = []) :=
  close_unconditional
    ⟨fun _ => true, fun _ => false, fun _ => false, fun _ => true⟩
    ⟨[2, 1, 0], [1, 0], true⟩

/-! ## The detach flags `_i_detached_driver_0/1/2` (rd_mouse.h:198-205)

The header marks each flag "set by open_mouse for close_mouse".  The
session operations are modelled as a step function; the open bodies are
missing and their flag effect is modelled from the open loop. -/

/-- The member state of an `rd_mouse` session object relevant to the
detach-flag claims: the libusb handle, `_i_detach_kernel_driver`
(rd_mouse.h:199), and the three flags `_i_detached_driver_0/1/2`
(rd_mouse.h:201-205). -/
structure Session where
  handleLive : Bool
  detach_kernel_driver : Bool
  detached_driver_0 : Bool
  detached_driver_1 : Bool
  detached_driver_2 : Bool
  deriving DecidableEq, Repr

/-- The three detach flags of a session, as one tuple. -/
def sessionFlags (s : Session) : Bool × Bool × Bool :=
  (s.detached_driver_0, s.detached_driver_1, s.detached_driver_2)

/-- An operation of the session's public lifecycle: the two open entry
points, close, a settings write (spec 4.2 `write`), and the
`set_detach_kernel_driver` setter (rd_mouse.h:156-158). -/
inductive SessionOp where
  | openMouse (env : UsbEnv) (n : Nat)
  | openMouseBusDevice (env : UsbEnv) (n : Nat)
  | closeMouse (env : UsbEnv)
  | writePacket
  | setDetachKernelDriver (b : Bool)

/-- Whether an operation is one of the two open entry points. -/
def isOpenOp : SessionOp → Bool
  | .openMouse _ _ => true
  | .openMouseBusDevice _ _ => true
  | _ => false

/-- Modelled from the spec: the flag `_i_detached_driver_i` that an open
attempt over `n` interfaces records — true iff interface `i` exists,
detaching is enabled, a kernel driver was active and the detach call
succeeded (spec 4.2). -/
def openFlags (env : UsbEnv) (detachKD : Bool) (n i : Nat) : Bool :=
  decide (i < n) && detachKD && env.hasKernelDriver i && !env.detachFails i

/-- Modelled from the spec: the effect of each session operation on the
session members.  Open writes the three detach flags (and the handle);
close consults the flags to emit its reattach calls but never writes
them; write and the setters leave them untouched (spec 3, 4.2). -/
def applySession (s : Session) : SessionOp → Session
  | .openMouse env n =>
    { s with
      handleLive := (_i_open_mouse env s.detach_kernel_driver n).1 == 0,
      detached_driver_0 := openFlags env s.detach_kernel_driver n 0,
      detached_driver_1 := openFlags env s.detach_kernel_driver n 1,
      detached_driver_2 := openFlags env s.detach_kernel_driver n 2 }
  | .openMouseBusDevice env n =>
    { s with
      handleLive := (_i_open_mouse_bus_device env s.detach_kernel_driver n).1
        == 0,
      detached_driver_0 := openFlags env s.detach_kernel_driver n 0,
      detached_driver_1 := openFlags env s.detach_kernel_driver n 1,
      detached_driver_2 := openFlags env s.detach_kernel_driver n 2 }
  | .closeMouse _ => { s with handleLive := false }
  | .writePacket => s
  | .setDetachKernelDriver b => { s with detach_kernel_driver := b }

/-- C9: the per-interface kernel-driver detach flags
`_i_detached_driver_0/1/2` are written only by the open operations: over
every sequence of session operations containing no open, the flags of
the resulting session state equal the flags of the starting state — in
particular close (which only reads them to drive its reattach calls)
and write never change them. -/
theorem detach_flags_only_written_by_open (s : Session)
    (ops : List SessionOp) (hno : ∀ op ∈ ops, isOpenOp op = false) :
    sessionFlags (ops.foldl applySession s) = sessionFlags s := by
  induction ops generalizing s with
  | nil => rfl
  | cons op ops ih =>
    have hop : isOpenOp op = false := hno op (by simp)
    have hops : ∀ op' ∈ ops, isOpenOp op' = false :=
      fun op' h => hno op' (by simp [h])
    rw [List.foldl_cons, ih (applySession s op) hops]
    cases op with
    | openMouse env n => exact absurd hop (by simp [isOpenOp])
    | openMouseBusDevice env n => exact absurd hop (by simp [isOpenOp])
    | closeMouse env => rfl
    | writePacket => rfl
    | setDetachKernelDriver b => rfl

/-- Witness for C9: a close, a write and a setter applied to a session
with flags `(true, true, false)` leave the flags unchanged. -/
theorem detach_flags_only_written_by_open_witness :
    sessionFlags
      (([SessionOp.closeMouse ⟨fun _ => true, fun _ => false,
          fun _ => false, fun _ => false⟩,
        SessionOp.writePacket,
        SessionOp.setDetachKernelDriver false]).foldl applySession
        ⟨true, true, true, true, false⟩)
      = sessionFlags ⟨true, true, true, true, false⟩ :=
  detach_flags_only_written_by_open ⟨true, true, true, true, false⟩ _
    (by intro op h; fin_cases h <;> rfl)

/-! ## Ancillary codecs (`_i_decode_lightmode`, `_i_decode_report_rate`)

Declared at rd_mouse.h:263-276; the bodies and the table contents
(`_c_lightmode_values` rd_mouse.h:191, `_c_report_rate_values`
rd_mouse.h:187, and their string maps) are in missing `.cpp` files. -/

/-- The available led modes (`rd_lightmode`, rd_mouse.h:104-116). -/
inductive RdLightmode where
  | lightmode_breathing
  | lightmode_rainbow
  | lightmode_static
  | lightmode_wave
  | lightmode_alternating
  | lightmode_reactive
  | lightmode_flashing
  | lightmode_off
  | lightmode_random
  | lightmode_reactive_button
  | lightmode_breathing_rainbow
  deriving DecidableEq, Repr

/-- The available USB report rates (`rd_report_rate`, rd_mouse.h:119-124). -/
inductive RdReportRate where
  | r_125Hz
  | r_250Hz
  | r_500Hz
  | r_1000Hz
  deriving DecidableEq, Repr

/-- Modelled from the spec: `_c_lightmode_values` (declared
rd_mouse.h:191, contents in a missing data file) — the closed
bidirectional map from 2-byte patterns to the lightmode enumeration;
the byte patterns are representative distinct values. -/
def _c_lightmode_values : List ((Nat × Nat) × RdLightmode) :=
  [((0x01, 0x00), .lightmode_breathing),
   ((0x02, 0x00), .lightmode_rainbow),
   ((0x03, 0x00), .lightmode_static),
   ((0x04, 0x00), .lightmode_wave),
   ((0x05, 0x00), .lightmode_alternating),
   ((0x06, 0x00), .lightmode_reactive),
   ((0x07, 0x00), .lightmode_flashing),
   ((0x00, 0x00), .lightmode_off),
   ((0x08, 0x00), .lightmode_random),
   ((0x09, 0x00), .lightmode_reactive_button),
   ((0x0a, 0x00), .lightmode_breathing_rainbow)]

/-- Modelled from the spec: `_c_lightmode_strings` (declared
rd_mouse.h:193) — the string form of each lightmode. -/
def _c_lightmode_strings : RdLightmode → String
  | .lightmode_breathing => "breathing"
  | .lightmode_rainbow => "rainbow"
  | .lightmode_static => "static"
  | .lightmode_wave => "wave"
  | .lightmode_alternating => "alternating"
  | .lightmode_reactive => "reactive"
  | .lightmode_flashing => "flashing"
  | .lightmode_off => "off"
  | .lightmode_random => "random"
  | .lightmode_reactive_button => "reactive-button"
  | .lightmode_breathing_rainbow => "breathing-rainbow"

/-- Modelled from the spec: `_c_report_rate_values` (declared
rd_mouse.h:187, contents missing) — the closed map from the report-rate
byte to the enumeration. -/
def _c_report_rate_values : List (Nat × RdReportRate) :=
  [(0x08, .r_125Hz),
   (0x04, .r_250Hz),
   (0x02, .r_500Hz),
   (0x01, .r_1000Hz)]

/-- Modelled from the spec: `_c_report_rate_strings` (declared
rd_mouse.h:189) — the string form of each report rate. -/
def _c_report_rate_strings : RdReportRate → String
  | .r_125Hz => "125"
  | .r_250Hz => "250"
  | .r_500Hz => "500"
  | .r_1000Hz => "1000"

/-- Modelled from the spec: `_i_decode_lightmode` (declared
rd_mouse.h:266, body missing).  Looks the 2-byte pattern up in the
closed table; a mapped pattern yields status 0 and the enumeration's
string form, an unmapped pattern is an error — nonzero status, no
fallback output (spec 4.5). -/
def _i_decode_lightmode (lightmode_bytes : Nat × Nat) :
    Nat × Option String :=
  match _c_lightmode_values.find? (fun e => e.1 == lightmode_bytes) with
  | some e => (0, some (_c_lightmode_strings e.2))
  | none => (1, none)

/-- Modelled from the spec: `_i_decode_report_rate` (declared
rd_mouse.h:276, body missing).  Same closed-table lookup for the 1-byte
report-rate code (spec 4.5). -/
def _i_decode_report_rate (report_rate_byte : Nat) :
    Nat × Option String :=
  match _c_report_rate_values.find? (fun e => e.1 == report_rate_byte) with
  | some e => (0, some (_c_report_rate_strings e.2))
  | none => (1, none)

theorem find?_key_mem_iff {κ β : Type} [BEq κ] [LawfulBEq κ]
    (l : List (κ × β)) (b : κ) :
    (l.find? (fun e => e.1 == b)).isSome = true ↔ b ∈ l.map Prod.fst := by
  rw [List.find?_isSome]
  constructor
  · rintro ⟨e, he, hpe⟩
    exact List.mem_map.mpr ⟨e, he, eq_of_beq hpe⟩
  · rintro hmem
    obtain ⟨e, he, hkey⟩ := List.mem_map.mp hmem
    exact ⟨e, he, by simp [hkey]⟩

/-- C8: the lightmode and report-rate decoders are exact closed-table
lookups.  A 2-byte pattern (resp. 1-byte value) decodes with status 0
iff it is a key of the table; on a nonzero status no output string is
produced (no fallback); and a pattern present in the table decodes to
status 0 with the string form of its enumeration value. -/
theorem ancillary_decode_closed (b2 : Nat × Nat) (b1 : Nat) :
    ((_i_decode_lightmode b2).1 = 0 ↔
      b2 ∈ _c_lightmode_values.map Prod.fst)
    ∧ ((_i_decode_lightmode b2).1 ≠ 0 → (_i_decode_lightmode b2).2 = none)
    ∧ (∀ m ∈ _c_lightmode_values, m.1 = b2 →
        _i_decode_lightmode b2 = (0, some (_c_lightmode_strings m.2)))
    ∧ ((_i_decode_report_rate b1).1 = 0 ↔
      b1 ∈ _c_report_rate_values.map Prod.fst)
    ∧ ((_i_decode_report_rate b1).1 ≠ 0 → (_i_decode_report_rate b1).2 = none)
    ∧ (∀ m ∈ _c_report_rate_values, m.1 = b1 →
        _i_decode_report_rate b1 = (0, some (_c_report_rate_strings m.2))) := by
  refine ⟨?_, ?_, ?_, ?_, ?_, ?_⟩
  · rw [← find?_key_mem_iff _c_lightmode_values b2]
    rw [_i_decode_lightmode]
    cases hf : _c_lightmode_values.find? (fun e => e.1 == b2) <;>
      simp [hf]
  · rw [_i_decode_lightmode]
    cases hf : _c_lightmode_values.find? (fun e => e.1 == b2) <;> simp
  · intro m hm hkey
    subst hkey
    fin_cases hm <;> rfl
  · rw [← find?_key_mem_iff _c_report_rate_values b1]
    rw [_i_decode_report_rate]
    cases hf : _c_report_rate_values.find? (fun e => e.1 == b1) <;>
      simp [hf]
  · rw [_i_decode_report_rate]
    cases hf : _c_report_rate_values.find? (fun e => e.1 == b1) <;> simp
  · intro m hm hkey
    subst hkey
    fin_cases hm <;> rfl

/-- Witness for C8: the unmapped lightmode pattern `(0xff, 0xff)` and
report-rate byte `0xff` decode to a nonzero status with no output; the
mapped pattern `(0x02, 0x00)` and byte `0x08` decode to status 0 with
the enumeration's string form. -/
theorem ancillary_decode_closed_witness :
    (_i_decode_lightmode (0xff, 0xff)).2 = none
    ∧ _i_decode_lightmode (0x02, 0x00)
        = (0, some (_c_lightmode_strings RdLightmode.lightmode_rainbow))
    ∧ (_i_decode_report_rate 0xff).2 = none
    ∧ _i_decode_report_rate 0x08
        = (0, some (_c_report_rate_strings RdReportRate.r_125Hz)) := by
  obtain ⟨-, h2, h3, -, h5, h6⟩ := ancillary_decode_closed (0xff, 0xff) 0xff
  obtain ⟨-, -, h3', -, -, h6'⟩ := ancillary_decode_closed (0x02, 0x00) 0x08
  exact ⟨h2 (by decide), h3' ((0x02, 0x00), RdLightmode.lightmode_rainbow)
      (by decide) rfl,
    h5 (by decide), h6' (0x08, RdReportRate.r_125Hz) (by decide) rfl⟩

end RdMouse
